import Mathlib

/-!
Verification of the MILP branch-and-bound orchestration layer (`ilp.go`).

Shallow embedding conventions:
* Go `float64` values are modelled as exact rationals (`ℚ`).
* Go `*mat.Dense` (a nil-able matrix pointer) is modelled as
  `Option (List (List ℚ))`; `solve` never inspects matrix contents.
* Go `error` values are modelled by the inductive type `Err`; a Go `nil`
  error is `Option.none`.
* A Go `panic` is modelled by the `SolveResult.panicked` constructor.
* The enumeration tree (`newEnumerationTree` / `startSearch`), the
  `solution` struct and `feasibleForIP` are code of the repository that is
  not part of the file under verification; where their behavior matters
  they are modelled from the specification (each such definition says so
  in its doc comment), and `solve` is parametrized over the search
  function so that theorems about the result-assembly logic quantify over
  every possible search outcome.
-/

/-- Decisions of the branch-and-bound loop that prune a subproblem after a
classified relaxation-solver failure.  Only these two named decision values
occur in the file under verification; further decision kinds (bound
dominance, improvement, branching) exist in the wider repository but are
not referenced by it. -/
inductive bnbDecision where
  | SUBPROBLEM_IS_DEGENERATE
  | SUBPROBLEM_NOT_FEASIBLE
deriving DecidableEq

/-- Go `error` values appearing in or flowing through `ilp.go`:
the two relaxation-solver failure kinds used as keys of `expectedFailures`
(`lp.ErrInfeasible`, `lp.ErrSingular`), the unbounded failure, the two
package-level error constants, a context (cancellation/deadline) error,
and arbitrary other errors. -/
inductive Err where
  | lpErrInfeasible
  | lpErrSingular
  | lpErrUnbounded
  | initialRelaxationNotFeasible
  | noIntegerFeasibleSolution
  | contextErr
  | other (msg : String)
deriving DecidableEq

/-- The static map of problem-specific, expected simplex failures to the
pruning decision each one implies, exactly as the `expectedFailures`
variable of `ilp.go` lists them: `lp.ErrInfeasible ↦
SUBPROBLEM_IS_DEGENERATE` and `lp.ErrSingular ↦ SUBPROBLEM_NOT_FEASIBLE`.
A key absent from the map yields `none` (an unexpected failure). -/
def expectedFailures : Err → Option bnbDecision
  | Err.lpErrInfeasible => some bnbDecision.SUBPROBLEM_IS_DEGENERATE
  | Err.lpErrSingular => some bnbDecision.SUBPROBLEM_NOT_FEASIBLE
  | _ => none

/-- A nil-able dense matrix (`*mat.Dense`); contents are never inspected
by the code under verification, only carried along. -/
abbrev DenseMat := Option (List (List ℚ))

/-- The pluggable branching-heuristic selector (`type BranchHeuristic int`);
`0` is the default (`maxFun`). -/
abbrev BranchHeuristic := ℕ

/-- Modelled from the spec: a Bound-Constraint is "(variable index,
threshold value, direction ∈ {≤, ≥})"; the `bnbConstraint` type itself is
repository code not in the file under verification. -/
inductive boundDir where
  | le
  | ge
deriving DecidableEq

/-- Modelled from the spec: a single branch-and-bound bound constraint
accumulated by a branching decision (variable index, threshold,
direction). -/
structure bnbConstraint where
  variableIndex : ℕ
  threshold : ℚ
  dir : boundDir
deriving DecidableEq

/-- The MILP problem: minimize `cᵀx` subject to `Gx ≤ h`, `Ax = b`, with
per-variable integrality flags (same order as `c`) and a chosen branching
heuristic. -/
structure milpProblem where
  c : List ℚ
  A : DenseMat
  b : List ℚ
  G : DenseMat
  h : List ℚ
  integralityConstraints : List Bool
  branchingHeuristic : BranchHeuristic
deriving DecidableEq

/-- A subproblem of the enumeration tree: an identifier, the problem data
(shared, never mutated) and the accumulated branch-and-bound constraints.
The field layout follows the literal of `toInitialSubProblem` in
`ilp.go`. -/
structure subProblem where
  id : ℤ
  c : List ℚ
  A : DenseMat
  b : List ℚ
  G : DenseMat
  h : List ℚ
  integralityConstraints : List Bool
  bnbConstraints : List bnbConstraint
deriving DecidableEq

/-- Modelled from the spec: the `solution` struct is repository code not
in the file under verification; per the spec a Solution is "a real-valued
assignment vector, its objective value, and an optional error/failure
classification".  `ilp.go` reads exactly the fields `x` and `err`. -/
structure solution where
  x : List ℚ
  z : ℚ
  err : Option Err
deriving DecidableEq

/-- The zero value of the `solution` struct (`var val solution` in Go):
nil assignment vector, zero objective, nil error. -/
def solutionZero : solution :=
  { x := [], z := 0, err := none }

/-- The value returned by `solve`: it wraps the accepted `solution`. -/
structure milpSolution where
  solution : solution
deriving DecidableEq

/-- Modelled from the spec: `feasibleForIP` is repository code not in the
file under verification; per the spec, "Integer-feasible" means every
flagged variable's value is within numerical tolerance of an integer.
With exact rational arithmetic the tolerance is zero, so a flagged value
must be an integer (denominator 1). -/
def feasibleForIP (integralityConstraints : List Bool) (x : List ℚ) : Bool :=
  (List.zip integralityConstraints x).all fun pr => !pr.1 || pr.2.den == 1

/-- `toInitialSubProblem` of `ilp.go`: the root subproblem has identifier
`0`, the problem's numerical definition copied over unchanged, and an
empty branch-and-bound constraint sequence. -/
def milpProblem.toInitialSubProblem (p : milpProblem) : subProblem :=
  { id := 0
    c := p.c
    A := p.A
    b := p.b
    G := p.G
    h := p.h
    integralityConstraints := p.integralityConstraints
    bnbConstraints := [] }

/-- The outcome of one `solve` call: either a Go panic with its message,
or a normal return of the `(milpSolution, error)` pair. -/
inductive SolveResult where
  | panicked (msg : String)
  | ok (res : milpSolution) (err : Option Err)
deriving DecidableEq

/-- Whether a `SolveResult` is a panic. -/
def SolveResult.isPanicked : SolveResult → Bool
  | SolveResult.panicked _ => true
  | SolveResult.ok _ _ => false

/-- `solve` of `ilp.go`, the result-assembly entry point.  The enumeration
tree is repository code not in the file under verification, so the search
it performs is abstracted into the parameter `startSearch` (mapping the
root subproblem to the final incumbent, `none` when no incumbent was
found), and the value of `ctx.Err()` observed after the search drains is
the parameter `ctxErr` (`none` when the context has not fired).  The
instrumentation middleware is omitted: per the spec it has no effect on
control flow.  The body mirrors the Go source line by line: the two usage
panics, then root-subproblem creation and search, then the timed-out
check, the nil-incumbent check, the incumbent-error check, the defensive
integrality re-validation, and finally the success return. -/
def milpProblem.solve (p : milpProblem) (workers : ℤ)
    (startSearch : subProblem → Option solution) (ctxErr : Option Err) :
    SolveResult :=
  if workers ≤ 0 then
    SolveResult.panicked "number of workers may not be lower than zero"
  else if p.integralityConstraints.length ≠ p.c.length then
    SolveResult.panicked "integrality constraints vector is not same length as vector c"
  else
    let initialRelaxation := p.toInitialSubProblem
    let incumbent := startSearch initialRelaxation
    match ctxErr with
    | some timedOut => SolveResult.ok ⟨incumbent.getD solutionZero⟩ (some timedOut)
    | none =>
      match incumbent with
      | none => SolveResult.ok ⟨solutionZero⟩ (some Err.noIntegerFeasibleSolution)
      | some inc =>
        match inc.err with
        | some e => SolveResult.ok ⟨solutionZero⟩ (some e)
        | none =>
          if ¬ feasibleForIP p.integralityConstraints inc.x then
            SolveResult.ok ⟨solutionZero⟩ (some Err.noIntegerFeasibleSolution)
          else
            SolveResult.ok ⟨inc⟩ none

/-- The relaxation solver's answer for one continuous LP: an optimal
assignment with its objective value, or a classified failure. -/
inductive LPResult where
  | optimal (x : List ℚ) (z : ℚ)
  | failure (e : Err)
deriving DecidableEq

/-- Modelled from the spec: the branching heuristic "picks, among
fractional flagged variables, the one judged most promising by an
objective-sensitivity criterion (e.g., largest-coefficient-magnitude
fractional variable)"; returns `none` when no flagged variable is
fractional. -/
def selectBranchVariable (x : List ℚ) (flags : List Bool) (c : List ℚ) :
    Option ℕ :=
  ((List.range x.length).filter fun i =>
      flags.getD i false && !((x.getD i 0).den == 1)).foldl
    (fun best i =>
      match best with
      | none => some i
      | some j => if |c.getD i 0| > |c.getD j 0| then some i else some j)
    none

/-- Modelled from the spec: `deriveChild` "appends the constraint to the
existing bound-constraint sequence and returns a new subproblem with a
fresh identifier; it never inspects or mutates the parent". -/
def deriveChild (s : subProblem) (freshId : ℤ) (con : bnbConstraint) :
    subProblem :=
  { s with id := freshId, bnbConstraints := s.bnbConstraints ++ [con] }

/-- Modelled from the spec: the incumbent is "replaced only when a newly
found integer-feasible solution strictly improves the objective
(minimization: strictly lower value) over the current incumbent, or when
no incumbent exists yet". -/
def updateIncumbent (inc : Option solution) (x : List ℚ) (z : ℚ) :
    Option solution :=
  match inc with
  | none => some { x := x, z := z, err := none }
  | some s => if z < s.z then some { x := x, z := z, err := none } else some s

/-- Modelled from the spec: the bound-dominance check prunes a node whose
relaxed objective "is no better than the current incumbent's objective
(for minimization: relaxed ≥ incumbent)"; with no incumbent nothing is
pruned. -/
def boundDominated (inc : Option solution) (z : ℚ) : Bool :=
  match inc with
  | none => false
  | some s => decide (s.z ≤ z)

/-- Modelled from the spec (§4.2): the per-node decision procedure of the
enumeration tree, run sequentially (node exploration order "never affects
correctness" per §5) with explicit fuel for termination.  Each step:
solve the relaxation; an expected failure prunes the node; an unexpected
failure aborts the whole search, surfacing the failure as the returned
solution's error marker; otherwise prune by bound dominance, or accept an
integer-feasible relaxation as a candidate incumbent, or branch the
selected fractional variable into a `≤ floor` child and a `≥ ceil`
child appended to the queue. -/
def searchLoop (solver : subProblem → LPResult) :
    ℕ → List subProblem → ℤ → Option solution → Option solution
  | 0, _, _, inc => inc
  | _ + 1, [], _, inc => inc
  | fuel + 1, sp :: rest, nextId, inc =>
    match solver sp with
    | LPResult.failure e =>
      if (expectedFailures e).isSome then
        searchLoop solver fuel rest nextId inc
      else
        some { x := [], z := 0, err := some e }
    | LPResult.optimal x z =>
      if boundDominated inc z then
        searchLoop solver fuel rest nextId inc
      else if feasibleForIP sp.integralityConstraints x then
        searchLoop solver fuel rest nextId (updateIncumbent inc x z)
      else
        match selectBranchVariable x sp.integralityConstraints sp.c with
        | none => searchLoop solver fuel rest nextId inc
        | some i =>
          let v := x.getD i 0
          let c1 := deriveChild sp nextId ⟨i, (⌊v⌋ : ℚ), boundDir.le⟩
          let c2 := deriveChild sp (nextId + 1) ⟨i, (⌈v⌉ : ℚ), boundDir.ge⟩
          searchLoop solver fuel (rest ++ [c1, c2]) (nextId + 2) inc

/-- Modelled from the spec: `startSearch` of the enumeration tree — the
queue is "initialized with exactly the root" and the search runs until
the queue empties (or the fuel, standing in for cancellation/resource
limits, runs out), returning the shared incumbent (possibly absent). -/
def startSearchModelled (solver : subProblem → LPResult) (fuel : ℕ)
    (root : subProblem) : Option solution :=
  searchLoop solver fuel [root] 1 none

/-- The rational number one half, built directly in lowest terms so that
its denominator is kernel-computable. -/
def half : ℚ := ⟨1, 2, by decide, Nat.coprime_one_left 2⟩

/-- Concrete fixture: a one-variable problem with `c = [1]`, no equality
or inequality rows, the single variable integrality-constrained, and the
default branching heuristic. -/
def pFix : milpProblem :=
  { c := [1]
    A := none
    b := []
    G := none
    h := []
    integralityConstraints := [true]
    branchingHeuristic := 0 }

/-- Concrete fixture: a search outcome with no incumbent. -/
def searchNone : subProblem → Option solution := fun _ => none

/-- Concrete fixture: an incumbent whose single coordinate is the
fractional value one half. -/
def solHalf : solution := { x := [half], z := 0, err := none }

/-- Concrete fixture: a search outcome producing the fractional
incumbent `solHalf`. -/
def searchHalf : subProblem → Option solution := fun _ => some solHalf

/-- Concrete fixture: an integer-feasible incumbent. -/
def solOne : solution := { x := [(1 : ℚ)], z := 1, err := none }

/-- Concrete fixture: a search outcome producing the integer-feasible
incumbent `solOne`. -/
def searchOne : subProblem → Option solution := fun _ => some solOne

/-- Concrete fixture: a relaxation solver classifying every LP as
infeasible. -/
def solverInfeasible : subProblem → LPResult :=
  fun _ => LPResult.failure Err.lpErrInfeasible

/-- The search loop returns the incumbent unchanged on an empty queue. -/
theorem searchLoop_nil (solver : subProblem → LPResult) (fuel : ℕ)
    (nextId : ℤ) (inc : Option solution) :
    searchLoop solver fuel [] nextId inc = inc := by
  cases fuel <;> rfl

/-- If the flags-and-values check passes, every flagged coordinate of the
zipped vector is an integer (denominator one). -/
theorem feasibleForIP_flagged_integral (flags : List Bool) (x : List ℚ)
    (h : feasibleForIP flags x = true) :
    ∀ pr ∈ List.zip flags x, pr.1 = true → pr.2.den = 1 := by
  intro pr hpr hflag
  have hall := List.all_eq_true.mp h pr hpr
  simpa [hflag] using hall

/-- C1: evaluating the static failure-classification map at its two keys:
the code sends the solver's infeasible failure to the prune-as-degenerate
decision `SUBPROBLEM_IS_DEGENERATE` and the singular failure to the
prune-as-infeasible decision `SUBPROBLEM_NOT_FEASIBLE` — the reverse of
the pairing the claim states; the two decisions are distinct values. -/
theorem expectedFailures_entries :
    expectedFailures Err.lpErrInfeasible
        = some bnbDecision.SUBPROBLEM_IS_DEGENERATE ∧
    expectedFailures Err.lpErrSingular
        = some bnbDecision.SUBPROBLEM_NOT_FEASIBLE ∧
    bnbDecision.SUBPROBLEM_IS_DEGENERATE ≠ bnbDecision.SUBPROBLEM_NOT_FEASIBLE :=
  ⟨rfl, rfl, by decide⟩

/-- C3: the root subproblem produced by `toInitialSubProblem` has
identifier 0, an empty bound-constraint sequence, and carries the
problem's objective coefficients, equality data, inequality data and
integrality flags unchanged. -/
theorem toInitialSubProblem_root (p : milpProblem) :
    p.toInitialSubProblem.id = 0 ∧
    p.toInitialSubProblem.bnbConstraints = [] ∧
    p.toInitialSubProblem.c = p.c ∧
    p.toInitialSubProblem.A = p.A ∧
    p.toInitialSubProblem.b = p.b ∧
    p.toInitialSubProblem.G = p.G ∧
    p.toInitialSubProblem.h = p.h ∧
    p.toInitialSubProblem.integralityConstraints = p.integralityConstraints :=
  ⟨rfl, rfl, rfl, rfl, rfl, rfl, rfl, rfl⟩

/-- C2: a solve call with a nonpositive worker count, or with an
integrality-flag sequence whose length differs from the objective's,
panics; the result is the same panic whatever search function and
context state are supplied, so no search outcome is consulted and no
solution is returned. -/
theorem solve_usageError_panics (p : milpProblem) (workers : ℤ)
    (h : workers ≤ 0 ∨ p.integralityConstraints.length ≠ p.c.length) :
    ∀ f g : subProblem → Option solution, ∀ ce ce2 : Option Err,
      (p.solve workers f ce).isPanicked = true ∧
      p.solve workers f ce = p.solve workers g ce2 := by
  intro f g ce ce2
  rcases h with h | h
  · exact ⟨by simp [milpProblem.solve, h, SolveResult.isPanicked],
      by simp [milpProblem.solve, h]⟩
  · by_cases hw : workers ≤ 0
    · exact ⟨by simp [milpProblem.solve, hw, SolveResult.isPanicked],
        by simp [milpProblem.solve, hw]⟩
    · exact ⟨by simp [milpProblem.solve, hw, h, SolveResult.isPanicked],
        by simp [milpProblem.solve, hw, h]⟩

/-- C2 witness: the concrete call with zero workers panics, and the
result does not depend on the search function or the context state. -/
theorem solve_usageError_panics_witness :
    (milpProblem.solve pFix 0 searchNone none).isPanicked = true ∧
    milpProblem.solve pFix 0 searchNone none
      = milpProblem.solve pFix 0 searchHalf (some Err.contextErr) :=
  solve_usageError_panics pFix 0 (Or.inl (by decide)) searchNone searchHalf
    none (some Err.contextErr)

/-- C4: when the cancellation error observed after the search drains is
non-nil, solve returns the best-effort incumbent (the zero-value solution
when the incumbent is absent) together with that non-nil error; the run
is never reported as a plain success. -/
theorem solve_cancelled_returnsErr (p : milpProblem) (workers : ℤ)
    (f : subProblem → Option solution) (e : Err)
    (hw : 0 < workers) (hl : p.integralityConstraints.length = p.c.length) :
    p.solve workers f (some e)
      = SolveResult.ok ⟨(f p.toInitialSubProblem).getD solutionZero⟩ (some e) ∧
    ∀ sol : milpSolution,
      p.solve workers f (some e) ≠ SolveResult.ok sol none := by
  have hw2 : ¬ workers ≤ 0 := not_le.mpr hw
  have heq : p.solve workers f (some e)
      = SolveResult.ok ⟨(f p.toInitialSubProblem).getD solutionZero⟩ (some e) := by
    simp [milpProblem.solve, hw2, hl]
  refine ⟨heq, ?_⟩
  intro sol hcontra
  rw [heq] at hcontra
  simp at hcontra

/-- C4 witness: at the concrete cancelled call with incumbent `solOne`,
solve returns `solOne` paired with the cancellation error. -/
theorem solve_cancelled_returnsErr_witness :
    milpProblem.solve pFix 1 searchOne (some Err.contextErr)
      = SolveResult.ok ⟨solOne⟩ (some Err.contextErr) :=
  (solve_cancelled_returnsErr pFix 1 searchOne Err.contextErr (by decide)
    (by decide)).1

/-- C5: a run that completes without cancellation and whose search
produced no incumbent reports the no-integer-feasible-solution outcome. -/
theorem solve_nilIncumbent_noIntFeasible (p : milpProblem) (workers : ℤ)
    (f : subProblem → Option solution)
    (hw : 0 < workers) (hl : p.integralityConstraints.length = p.c.length)
    (hf : f p.toInitialSubProblem = none) :
    p.solve workers f none
      = SolveResult.ok ⟨solutionZero⟩ (some Err.noIntegerFeasibleSolution) := by
  have hw2 : ¬ workers ≤ 0 := not_le.mpr hw
  simp [milpProblem.solve, hw2, hl, hf]

/-- C5 witness: the concrete uncancelled call with no incumbent reports
the no-integer-feasible-solution outcome. -/
theorem solve_nilIncumbent_noIntFeasible_witness :
    milpProblem.solve pFix 1 searchNone none
      = SolveResult.ok ⟨solutionZero⟩ (some Err.noIntegerFeasibleSolution) :=
  solve_nilIncumbent_noIntFeasible pFix 1 searchNone (by decide) (by decide) rfl

/-- C9: a cancelled run whose search produced no incumbent still returns
safely: the zero-value solution paired with the cancellation error — the
absent-incumbent case is guarded, never dereferenced. -/
theorem solve_cancelled_nilIncumbent (p : milpProblem) (workers : ℤ)
    (f : subProblem → Option solution) (e : Err)
    (hw : 0 < workers) (hl : p.integralityConstraints.length = p.c.length)
    (hf : f p.toInitialSubProblem = none) :
    p.solve workers f (some e)
      = SolveResult.ok ⟨solutionZero⟩ (some e) := by
  have hw2 : ¬ workers ≤ 0 := not_le.mpr hw
  simp [milpProblem.solve, hw2, hl, hf]

/-- C9 witness: the concrete cancelled call with no incumbent returns the
zero-value solution paired with the cancellation error. -/
theorem solve_cancelled_nilIncumbent_witness :
    milpProblem.solve pFix 1 searchNone (some Err.contextErr)
      = SolveResult.ok ⟨solutionZero⟩ (some Err.contextErr) :=
  solve_cancelled_nilIncumbent pFix 1 searchNone Err.contextErr (by decide)
    (by decide) rfl

/-- C6: a run that completes without cancellation, whose incumbent has no
error marker but whose assignment fails the defensive integrality
re-validation against the problem's integrality flags, reports the
no-integer-feasible-solution outcome and is never a plain success. -/
theorem solve_failedRevalidation (p : milpProblem) (workers : ℤ)
    (f : subProblem → Option solution) (s : solution)
    (hw : 0 < workers) (hl : p.integralityConstraints.length = p.c.length)
    (hf : f p.toInitialSubProblem = some s) (hserr : s.err = none)
    (hfeas : feasibleForIP p.integralityConstraints s.x = false) :
    p.solve workers f none
      = SolveResult.ok ⟨solutionZero⟩ (some Err.noIntegerFeasibleSolution) ∧
    ∀ sol : milpSolution, p.solve workers f none ≠ SolveResult.ok sol none := by
  have hw2 : ¬ workers ≤ 0 := not_le.mpr hw
  have heq : p.solve workers f none
      = SolveResult.ok ⟨solutionZero⟩ (some Err.noIntegerFeasibleSolution) := by
    simp [milpProblem.solve, hw2, hl, hf, hserr, hfeas]
  refine ⟨heq, ?_⟩
  intro sol hc
  rw [heq] at hc
  simp at hc

/-- C6 witness: the concrete uncancelled call whose incumbent holds the
fractional assignment `[half]` reports the no-integer-feasible-solution
outcome. -/
theorem solve_failedRevalidation_witness :
    milpProblem.solve pFix 1 searchHalf none
      = SolveResult.ok ⟨solutionZero⟩ (some Err.noIntegerFeasibleSolution) :=
  (solve_failedRevalidation pFix 1 searchHalf solHalf (by decide) (by decide)
    rfl rfl (by decide)).1

/-- C10: every plain-success return of solve carries an assignment vector
that passes the integer-feasibility check against the problem's
integrality flags; unfolded, every flagged coordinate is an integer. -/
theorem solve_success_integerFeasible (p : milpProblem) (workers : ℤ)
    (f : subProblem → Option solution) (ce : Option Err) (sol : milpSolution)
    (h : p.solve workers f ce = SolveResult.ok sol none) :
    feasibleForIP p.integralityConstraints sol.solution.x = true ∧
    ∀ pr ∈ List.zip p.integralityConstraints sol.solution.x,
      pr.1 = true → pr.2.den = 1 := by
  by_cases hw : workers ≤ 0
  · simp [milpProblem.solve, hw] at h
  · by_cases hl : p.integralityConstraints.length ≠ p.c.length
    · simp [milpProblem.solve, hw, hl] at h
    · cases ce with
      | some e => simp [milpProblem.solve, hw, hl] at h
      | none =>
        cases hf : f p.toInitialSubProblem with
        | none => simp [milpProblem.solve, hw, hl, hf] at h
        | some inc =>
          cases herr : inc.err with
          | some e2 => simp [milpProblem.solve, hw, hl, hf, herr] at h
          | none =>
            by_cases hfeas : feasibleForIP p.integralityConstraints inc.x
            · have heq : p.solve workers f none = SolveResult.ok ⟨inc⟩ none := by
                simp [milpProblem.solve, hw, hl, hf, herr, hfeas]
              rw [heq] at h
              injection h with h1 h2
              cases h1
              exact ⟨hfeas, feasibleForIP_flagged_integral _ _ hfeas⟩
            · simp [milpProblem.solve, hw, hl, hf, herr, hfeas] at h

/-- C10 witness: the concrete successful call returns the incumbent
`solOne`, whose assignment passes the integer-feasibility check. -/
theorem solve_success_integerFeasible_witness :
    feasibleForIP pFix.integralityConstraints
      ((⟨solOne⟩ : milpSolution)).solution.x = true :=
  (solve_success_integerFeasible pFix 1 searchOne none ⟨solOne⟩ (by decide)).1

/-- C7 counterexample: at a concrete problem whose root relaxation the
solver classifies as infeasible, the search prunes the root and solve
reports the generic no-integer-feasible-solution outcome; the dedicated
initial-relaxation-infeasible classification is a distinct value that is
not returned. -/
theorem solve_rootInfeasible_counterexample :
    milpProblem.solve pFix 1 (startSearchModelled solverInfeasible 1) none
      = SolveResult.ok ⟨solutionZero⟩ (some Err.noIntegerFeasibleSolution) ∧
    Err.noIntegerFeasibleSolution ≠ Err.initialRelaxationNotFeasible :=
  ⟨by decide, by decide⟩

/-- C7 (amended): for every problem and positive worker count, when the
relaxation solver classifies the root relaxation with an expected failure
(in particular infeasible), the search prunes the root, no incumbent
exists, and solve reports the generic no-integer-feasible-solution
outcome rather than the dedicated initial-relaxation-infeasible
classification. -/
theorem solve_rootInfeasible_generic (p : milpProblem) (workers : ℤ)
    (solver : subProblem → LPResult) (fuel : ℕ) (e : Err)
    (hw : 0 < workers) (hl : p.integralityConstraints.length = p.c.length)
    (hroot : solver p.toInitialSubProblem = LPResult.failure e)
    (hexp : (expectedFailures e).isSome = true) :
    p.solve workers (startSearchModelled solver (fuel + 1)) none
      = SolveResult.ok ⟨solutionZero⟩ (some Err.noIntegerFeasibleSolution) := by
  have hw2 : ¬ workers ≤ 0 := not_le.mpr hw
  have hsearch :
      startSearchModelled solver (fuel + 1) p.toInitialSubProblem = none := by
    unfold startSearchModelled
    simp [searchLoop, hroot, hexp, searchLoop_nil]
  simp [milpProblem.solve, hw2, hl, hsearch]

/-- C7 amended-claim witness: a concrete root-infeasible run with two
workers and larger fuel reports the generic no-integer-feasible-solution
outcome. -/
theorem solve_rootInfeasible_generic_witness :
    milpProblem.solve pFix 2 (startSearchModelled solverInfeasible 5) none
      = SolveResult.ok ⟨solutionZero⟩ (some Err.noIntegerFeasibleSolution) :=
  solve_rootInfeasible_generic pFix 2 solverInfeasible 4 Err.lpErrInfeasible
    (by decide) (by decide) rfl rfl

/-- C8 counterexample: at a completed run whose incumbent slot holds the
nonempty assignment `[half]`, solve classifies the outcome as
no-integer-feasible-solution yet returns the zero-value solution with an
empty assignment vector, discarding the available assignment. -/
theorem solve_outcome_dropsIncumbent :
    milpProblem.solve pFix 1 searchHalf none
      = SolveResult.ok ⟨solutionZero⟩ (some Err.noIntegerFeasibleSolution) ∧
    searchHalf pFix.toInitialSubProblem = some solHalf ∧
    solHalf.x = [half] ∧
    solutionZero.x = [] :=
  ⟨by decide, rfl, rfl, rfl⟩

/-- C8 (amended): every solve call with valid usage returns normally and
its outcome is one of the classifications: plain success carrying the
incumbent, cancellation carrying the best-effort incumbent (zero-value
when absent), no-integer-feasible-solution with the zero-value solution,
or a propagated incumbent failure with the zero-value solution; the
dedicated initial-relaxation-infeasible classification only occurs as a
propagated incumbent failure. -/
theorem solve_outcome_classification (p : milpProblem) (workers : ℤ)
    (f : subProblem → Option solution) (ce : Option Err)
    (hw : 0 < workers) (hl : p.integralityConstraints.length = p.c.length) :
    ∃ sol err, p.solve workers f ce = SolveResult.ok sol err ∧
      ((err = none ∧ ∃ s, f p.toInitialSubProblem = some s ∧ sol = ⟨s⟩) ∨
       (ce.isSome = true ∧ err = ce ∧
         sol = ⟨(f p.toInitialSubProblem).getD solutionZero⟩) ∨
       (ce = none ∧ err = some Err.noIntegerFeasibleSolution ∧
         sol = ⟨solutionZero⟩) ∨
       (ce = none ∧ sol = ⟨solutionZero⟩ ∧
         ∃ s e2, f p.toInitialSubProblem = some s ∧ s.err = some e2 ∧
           err = some e2)) := by
  have hw2 : ¬ workers ≤ 0 := not_le.mpr hw
  cases ce with
  | some e =>
    refine ⟨⟨(f p.toInitialSubProblem).getD solutionZero⟩, some e, ?_, ?_⟩
    · simp [milpProblem.solve, hw2, hl]
    · exact Or.inr (Or.inl ⟨rfl, rfl, rfl⟩)
  | none =>
    cases hf : f p.toInitialSubProblem with
    | none =>
      refine ⟨⟨solutionZero⟩, some Err.noIntegerFeasibleSolution, ?_, ?_⟩
      · simp [milpProblem.solve, hw2, hl, hf]
      · exact Or.inr (Or.inr (Or.inl ⟨rfl, rfl, rfl⟩))
    | some inc =>
      cases herr : inc.err with
      | some e2 =>
        refine ⟨⟨solutionZero⟩, some e2, ?_, ?_⟩
        · simp [milpProblem.solve, hw2, hl, hf, herr]
        · exact Or.inr (Or.inr (Or.inr ⟨rfl, rfl, inc, e2, rfl, herr, rfl⟩))
      | none =>
        by_cases hfeas : feasibleForIP p.integralityConstraints inc.x
        · refine ⟨⟨inc⟩, none, ?_, ?_⟩
          · simp [milpProblem.solve, hw2, hl, hf, herr, hfeas]
          · exact Or.inl ⟨rfl, inc, rfl, rfl⟩
        · refine ⟨⟨solutionZero⟩, some Err.noIntegerFeasibleSolution, ?_, ?_⟩
          · simp [milpProblem.solve, hw2, hl, hf, herr, hfeas]
          · exact Or.inr (Or.inr (Or.inl ⟨rfl, rfl, rfl⟩))

/-- C8 amended-claim witness: the concrete successful call falls in the
success classification carrying the incumbent. -/
theorem solve_outcome_classification_witness :
    ∃ sol err,
      milpProblem.solve pFix 1 searchOne none = SolveResult.ok sol err ∧
      ((err = none ∧
          ∃ s, searchOne pFix.toInitialSubProblem = some s ∧ sol = ⟨s⟩) ∨
       ((none : Option Err).isSome = true ∧ err = none ∧
         sol = ⟨(searchOne pFix.toInitialSubProblem).getD solutionZero⟩) ∨
       ((none : Option Err) = none ∧
         err = some Err.noIntegerFeasibleSolution ∧ sol = ⟨solutionZero⟩) ∨
       ((none : Option Err) = none ∧ sol = ⟨solutionZero⟩ ∧
         ∃ s e2, searchOne pFix.toInitialSubProblem = some s ∧
           s.err = some e2 ∧ err = some e2)) :=
  solve_outcome_classification pFix 1 searchOne none (by decide) (by decide)
